/- Verification development for the MCP scanner client
   (pkg/mcp/scanner.go and pkg/mcp/types.go).

   Strings are modelled as lists of characters (`Str`), so that the
   line-splitting and trimming done by the Go `strings` package can be
   reasoned about by structural induction.  The HTTP transport is modelled
   as a `World`: the list of transport outcomes the server will produce for
   the successive HTTP POSTs made by the scanner; each `httpClient.Do`
   consumes the head of the list (an empty list behaves as a transport
   failure).  `encoding/json` is modelled by a small executable JSON value
   type plus a text parser covering the payload subset exchanged by this
   client (objects, arrays, escape-free strings, integer numbers, literals,
   insignificant whitespace) and per-type decoding functions mirroring
   `json.Unmarshal` semantics on the struct types of types.go. -/
import Mathlib

namespace MCP

abbrev Str := List Char

/-- Mirrors the whitespace class used by Go `strings.TrimSpace`
(restricted to the ASCII whitespace relevant to this protocol). -/
def isSpaceCh (c : Char) : Bool :=
  c == ' ' || c == '\t' || c == '\n' || c == '\r'

/-- Mirrors Go `strings.HasPrefix`. -/
def hasPfx : Str → Str → Bool
  | [], _ => true
  | _ :: _, [] => false
  | a :: as, b :: bs => a == b && hasPfx as bs

/-- Mirrors Go `strings.TrimPrefix`. -/
def trimPfx (p s : Str) : Str :=
  if hasPfx p s then s.drop p.length else s

/-- Mirrors Go `strings.TrimSpace`. -/
def trimSpace (s : Str) : Str :=
  ((s.dropWhile isSpaceCh).reverse.dropWhile isSpaceCh).reverse

/-- Mirrors Go `strings.Split(s, "\n")`. -/
def splitNL : Str → List Str
  | [] => [[]]
  | c :: cs =>
    if c == '\n' then [] :: splitNL cs
    else
      match splitNL cs with
      | [] => [[c]]
      | l :: ls => (c :: l) :: ls

/-- JSON values, as produced by decoding into a Go `interface\x7b\x7d`. -/
inductive JSON where
  | null
  | bool (b : Bool)
  | num (n : Int)
  | str (s : Str)
  | arr (xs : List JSON)
  | obj (fields : List (Str × JSON))

/-- Skips insignificant JSON whitespace. -/
def skipWs (s : Str) : Str := s.dropWhile isSpaceCh

/-- Scans a JSON string literal body (escape sequences are outside the
modelled subset), returning the body and the remainder after the
closing quote. -/
def parseStrLit (s : Str) : Option (Str × Str) :=
  let p := s.span (fun c => !(c == '\"' || c == '\\'))
  match p.2 with
  | '\"' :: r => some (p.1, r)
  | _ => none

/-- Folds a digit run into a natural number. -/
def digitsVal (ds : Str) : Nat :=
  ds.foldl (fun acc c => 10 * acc + (c.toNat - '0'.toNat)) 0

/-- Scans a JSON integer literal (fractions and exponents are outside the
modelled subset). -/
def parseIntLit (s : Str) : Option (Int × Str) :=
  match s with
  | '-' :: r =>
    let p := r.span Char.isDigit
    if p.1.isEmpty then none else some (-(digitsVal p.1 : Int), p.2)
  | _ =>
    let p := s.span Char.isDigit
    if p.1.isEmpty then none else some ((digitsVal p.1 : Int), p.2)

/-- Parsing mode of the fuel-indexed JSON text parser: a single value, the
items of an array after `[`, or the fields of an object after `\x7b`. -/
inductive PMode where
  | val
  | items
  | fields

/-- Result of one parsing mode. -/
inductive PRes where
  | val (v : JSON)
  | items (vs : List JSON)
  | fields (fs : List (Str × JSON))

/-- Fuel-indexed JSON text parser; the fuel only bounds recursion depth. -/
def parseStep : Nat → PMode → Str → Option (PRes × Str)
  | 0, _, _ => none
  | fuel + 1, .val, s =>
    match skipWs s with
    | [] => none
    | c :: rest =>
      if c == '\x7b' then
        match skipWs rest with
        | '\x7d' :: r2 => some (.val (.obj []), r2)
        | _ =>
          match parseStep fuel .fields rest with
          | some (.fields fs, r2) => some (.val (.obj fs), r2)
          | _ => none
      else if c == '[' then
        match skipWs rest with
        | ']' :: r2 => some (.val (.arr []), r2)
        | _ =>
          match parseStep fuel .items rest with
          | some (.items vs, r2) => some (.val (.arr vs), r2)
          | _ => none
      else if c == '\"' then
        match parseStrLit rest with
        | some (b, r2) => some (.val (.str b), r2)
        | none => none
      else if c == 't' then
        if hasPfx "rue".toList rest then some (.val (.bool true), rest.drop 3) else none
      else if c == 'f' then
        if hasPfx "alse".toList rest then some (.val (.bool false), rest.drop 4) else none
      else if c == 'n' then
        if hasPfx "ull".toList rest then some (.val .null, rest.drop 3) else none
      else if c == '-' || c.isDigit then
        match parseIntLit (c :: rest) with
        | some (n, r2) => some (.val (.num n), r2)
        | none => none
      else none
  | fuel + 1, .items, s =>
    match parseStep fuel .val s with
    | some (.val v, r1) =>
      (match skipWs r1 with
       | ',' :: r2 =>
         match parseStep fuel .items r2 with
         | some (.items vs, r3) => some (.items (v :: vs), r3)
         | _ => none
       | ']' :: r2 => some (.items [v], r2)
       | _ => none)
    | _ => none
  | fuel + 1, .fields, s =>
    match skipWs s with
    | '\"' :: rest =>
      match parseStrLit rest with
      | some (k, r1) =>
        (match skipWs r1 with
         | ':' :: r2 =>
           match parseStep fuel .val r2 with
           | some (.val v, r3) =>
             (match skipWs r3 with
              | ',' :: r4 =>
                match parseStep fuel .fields r4 with
                | some (.fields fs, r5) => some (.fields ((k, v) :: fs), r5)
                | _ => none
              | '\x7d' :: r4 => some (.fields [(k, v)], r4)
              | _ => none)
           | _ => none
         | _ => none)
      | none => none
    | _ => none

/-- Models `json.Unmarshal` text parsing into a generic JSON value: the
body must be a single value followed only by whitespace. -/
def jsonParse (s : Str) : Option JSON :=
  match parseStep (2 * s.length + 2) .val s with
  | some (.val v, rest) => if (skipWs rest).isEmpty then some v else none
  | _ => none

/-! Structures of types.go. -/

/-- Mirrors `ScanOptions` of types.go. -/
structure ScanOptions where
  HTTPUrl : Str

/-- Mirrors `ToolInfo` of types.go. -/
structure ToolInfo where
  name : Str
  description : Str

/-- Mirrors `PromptInfo` of types.go. -/
structure PromptInfo where
  name : Str
  description : Str

/-- Mirrors `ResourceInfo` of types.go. -/
structure ResourceInfo where
  name : Str
  description : Str
  uri : Str

/-- Mirrors `Implementation` of types.go. -/
structure Implementation where
  name : Str
  version : Str

/-- Mirrors `ClientCapabilities` of types.go (no fields). -/
structure ClientCapabilities where

/-- Mirrors `InitializeParams` of types.go. -/
structure InitializeParams where
  protocolVersion : Str
  capabilities : ClientCapabilities
  clientInfo : Implementation

/-- Mirrors `JSONRPCRequest` of types.go; the scanner only ever stores
integer ids (or leaves the field unset for notifications), and the only
params value it sends is an `InitializeParams`. -/
structure JSONRPCRequest where
  jsonrpc : Str
  id : Option Nat
  method : Str
  params : Option InitializeParams

/-- Mirrors `JSONRPCError` of types.go. -/
structure JSONRPCError where
  code : Int
  message : Str
  data : JSON

/-- Mirrors `JSONRPCResponse` of types.go; `result` is a decoded
`interface\x7b\x7d` value, with `JSON.null` for an absent field, exactly as Go
leaves a `nil` interface. -/
structure JSONRPCResponse where
  jsonrpc : Str
  id : JSON
  result : JSON
  error : Option JSONRPCError

/-- Mirrors `Tool` of types.go. -/
structure Tool where
  name : Str
  description : Str
  inputSchema : JSON

/-- Mirrors `ListToolsResult` of types.go. -/
structure ListToolsResult where
  tools : List Tool

/-- Mirrors `Prompt` of types.go. -/
structure Prompt where
  name : Str
  description : Str
  arguments : JSON

/-- Mirrors `ListPromptsResult` of types.go. -/
structure ListPromptsResult where
  prompts : List Prompt

/-- Mirrors `Resource` of types.go. -/
structure Resource where
  uri : Str
  name : Str
  description : Str
  mimeType : Str

/-- Mirrors `ListResourcesResult` of types.go. -/
structure ListResourcesResult where
  resources : List Resource

/-! Decoding of JSON values into the typed shapes, following
`json.Unmarshal` semantics: object fields are matched by name, unknown
fields are ignored, a missing field leaves the zero value, a JSON `null`
decoded into a struct is a no-op, and a type mismatch is an error. -/

/-- First binding of a field name in a decoded JSON object. -/
def lookupField (name : Str) : List (Str × JSON) → Option JSON
  | [] => none
  | (k, v) :: fs => if k = name then some v else lookupField name fs

/-- Decodes the `error` field into `*JSONRPCError`. -/
def decodeErrField : JSON → Option (Option JSONRPCError)
  | .null => some none
  | .obj fs => do
    let code ← match lookupField "code".toList fs with
      | none => some 0
      | some (.num n) => some n
      | some _ => none
    let message ← match lookupField "message".toList fs with
      | none => some []
      | some (.str s) => some s
      | some _ => none
    some (some ⟨code, message, (lookupField "data".toList fs).getD .null⟩)
  | _ => none

/-- Decodes a JSON value into `JSONRPCResponse`, as
`json.Unmarshal(responseBody, response)` does. -/
def decodeResponse : JSON → Option JSONRPCResponse
  | .null => some ⟨[], .null, .null, none⟩
  | .obj fs => do
    let j ← match lookupField "jsonrpc".toList fs with
      | none => some []
      | some (.str s) => some s
      | some _ => none
    let e ← match lookupField "error".toList fs with
      | none => some none
      | some v => decodeErrField v
    some ⟨j, (lookupField "id".toList fs).getD .null,
          (lookupField "result".toList fs).getD .null, e⟩
  | _ => none

/-- Reads a string-typed struct field: missing gives the zero value,
non-string is a type error. -/
def strField (name : Str) (fs : List (Str × JSON)) : Option Str :=
  match lookupField name fs with
  | none => some []
  | some (.str s) => some s
  | some _ => none

/-- Decodes one element of the `tools` array into `Tool`. -/
def decodeTool : JSON → Option Tool
  | .null => some ⟨[], [], .null⟩
  | .obj fs => do
    let name ← strField "name".toList fs
    let description ← strField "description".toList fs
    some ⟨name, description, (lookupField "inputSchema".toList fs).getD .null⟩
  | _ => none

/-- Decodes a result payload into `ListToolsResult`. -/
def decodeListToolsResult : JSON → Option ListToolsResult
  | .null => some ⟨[]⟩
  | .obj fs =>
    (match lookupField "tools".toList fs with
     | none => some ⟨[]⟩
     | some .null => some ⟨[]⟩
     | some (.arr xs) => do
       let ts ← xs.mapM decodeTool
       some ⟨ts⟩
     | some _ => none)
  | _ => none

/-- Decodes one element of the `prompts` array into `Prompt`. -/
def decodePrompt : JSON → Option Prompt
  | .null => some ⟨[], [], .null⟩
  | .obj fs => do
    let name ← strField "name".toList fs
    let description ← strField "description".toList fs
    some ⟨name, description, (lookupField "arguments".toList fs).getD .null⟩
  | _ => none

/-- Decodes a result payload into `ListPromptsResult`. -/
def decodeListPromptsResult : JSON → Option ListPromptsResult
  | .null => some ⟨[]⟩
  | .obj fs =>
    (match lookupField "prompts".toList fs with
     | none => some ⟨[]⟩
     | some .null => some ⟨[]⟩
     | some (.arr xs) => do
       let ps ← xs.mapM decodePrompt
       some ⟨ps⟩
     | some _ => none)
  | _ => none

/-- Decodes one element of the `resources` array into `Resource`. -/
def decodeResource : JSON → Option Resource
  | .null => some ⟨[], [], [], []⟩
  | .obj fs => do
    let uri ← strField "uri".toList fs
    let name ← strField "name".toList fs
    let description ← strField "description".toList fs
    let mimeType ← strField "mimeType".toList fs
    some ⟨uri, name, description, mimeType⟩
  | _ => none

/-- Decodes a result payload into `ListResourcesResult`. -/
def decodeListResourcesResult : JSON → Option ListResourcesResult
  | .null => some ⟨[]⟩
  | .obj fs =>
    (match lookupField "resources".toList fs with
     | none => some ⟨[]⟩
     | some .null => some ⟨[]⟩
     | some (.arr xs) => do
       let rs ← xs.mapM decodeResource
       some ⟨rs⟩
     | some _ => none)
  | _ => none

/-! The HTTP transport model and the scanner of scanner.go. -/

/-- One HTTP response as seen by the scanner: status code, the value of
the `Mcp-Session-Id` response header (`[]` when the header is absent,
exactly as Go `Header.Get` returns `""`), the raw body, and whether
reading the body fails mid-stream (an `io.ReadAll` error). -/
structure HTTPResponse where
  statusCode : Nat
  sessionHeader : Str
  body : Str
  bodyErr : Bool

/-- Outcome of one `httpClient.Do`: a transport failure or a response. -/
inductive HTTPResult where
  | failure
  | success (resp : HTTPResponse)

/-- The transport outcomes the server produces for the scanner's
successive HTTP POSTs, consumed in order; an exhausted list behaves as a
transport failure. -/
abbrev World := List HTTPResult

/-- Record of one outgoing HTTP POST: the JSON-RPC envelope it carries
and the `Mcp-Session-Id` request header, if set. -/
structure OutHTTP where
  req : JSONRPCRequest
  sessionHeader : Option Str

/-- Mirrors the mutable fields of `Scanner` in scanner.go (`options` and
`httpClient` are carried separately by the model). -/
structure Scanner where
  requestID : Nat
  sessionID : Str

/-- Failure modes of `sendRequest` / `sendNotification`: the `Do` call
failing, a non-200 status, an `io.ReadAll` failure, an SSE body without a
`data:` line, and a `json.Unmarshal` failure.  Marshalling the request
and building the `http.Request` never fail for the values this scanner
constructs, so they have no constructor. -/
inductive SendErr where
  | httpFail
  | httpStatus (code : Nat) (body : Str)
  | readErr
  | sseErr
  | unmarshalErr

/-- Failure modes of the handshake: the request failing, or a populated
JSON-RPC `error` field. -/
inductive InitErr where
  | requestFailed (e : SendErr)
  | rpcError (e : JSONRPCError)

/-- Failure modes of `Scan`: an invalid URL or a failed handshake. -/
inductive ScanErr where
  | invalidURL
  | initFailed (e : InitErr)

/-- The aggregate of the three listings that `Scan` hands to
`displayResults`. -/
structure ScanResult where
  tools : List ToolInfo
  prompts : List PromptInfo
  resources : List ResourceInfo

/-- Mirrors `MCPProtocolVersion` of scanner.go. -/
def MCPProtocolVersion : Str := "2025-06-18".toList

/-- Mirrors `New` of scanner.go: request counter starts at 1 and no
session id is set. -/
def New : Scanner := ⟨1, []⟩

/-- Mirrors `nextRequestID` of scanner.go: returns the current id and
increments the counter. -/
def nextRequestID (s : Scanner) : Nat × Scanner :=
  (s.requestID, { s with requestID := s.requestID + 1 })

/-- The session header attached to an outgoing request: set exactly when
`s.sessionID != ""`. -/
def sessionHeaderOf (s : Scanner) : Option Str :=
  if s.sessionID = [] then none else some s.sessionID

/-- The loop body of `parseSSEResponse`: first line whose trimmed form
begins with `data: `, with that prefix removed. -/
def findDataLine : List Str → Option Str
  | [] => none
  | l :: ls =>
    let t := trimSpace l
    if hasPfx "data: ".toList t then some (trimPfx "data: ".toList t)
    else findDataLine ls

/-- Mirrors `parseSSEResponse` of scanner.go; `none` is the
`no data field found in SSE response` error. -/
def parseSSEResponse (sseData : Str) : Option Str :=
  findDataLine (splitNL sseData)

/-- The response-body stage of `sendRequest` (scanner.go lines 298-308):
a body starting with an SSE preamble is normalized by `parseSSEResponse`
(failure is the framing error), any other body is taken as JSON
directly, and the normalized text is unmarshalled into the response
envelope. -/
def processBody (body : Str) : Except SendErr JSONRPCResponse :=
  let normalized : Except SendErr Str :=
    if hasPfx "event:".toList body then
      match parseSSEResponse body with
      | some d => .ok d
      | none => .error .sseErr
    else .ok body
  match normalized with
  | .error e => .error e
  | .ok data =>
    match jsonParse data with
    | none => .error .unmarshalErr
    | some v =>
      match decodeResponse v with
      | none => .error .unmarshalErr
      | some r => .ok r

/-- Mirrors `sendRequest` of scanner.go.  Returns the call outcome, the
scanner state after the call, the remaining world, and the record of the
outgoing POST. -/
def sendRequest (s : Scanner) (w : World) (request : JSONRPCRequest) :
    Except SendErr JSONRPCResponse × Scanner × World × OutHTTP :=
  let out : OutHTTP := ⟨request, sessionHeaderOf s⟩
  match w with
  | [] => (.error .httpFail, s, [], out)
  | .failure :: rest => (.error .httpFail, s, rest, out)
  | .success resp :: rest =>
    if resp.statusCode ≠ 200 then
      (.error (.httpStatus resp.statusCode resp.body), s, rest, out)
    else
      let s1 := if resp.sessionHeader ≠ [] then { s with sessionID := resp.sessionHeader } else s
      if resp.bodyErr then (.error .readErr, s1, rest, out)
      else (processBody resp.body, s1, rest, out)

/-- Mirrors `sendNotification` of scanner.go: an error status (>= 400)
is only logged, and the scanner state is never touched. -/
def sendNotification (s : Scanner) (w : World) (notification : JSONRPCRequest) :
    Except SendErr Unit × Scanner × World × OutHTTP :=
  let out : OutHTTP := ⟨notification, sessionHeaderOf s⟩
  match w with
  | [] => (.error .httpFail, s, [], out)
  | .failure :: rest => (.error .httpFail, s, rest, out)
  | .success _ :: rest => (.ok (), s, rest, out)

/-- The `InitializeParams` literal built by the `initialize` method of
scanner.go. -/
def initParams : InitializeParams :=
  ⟨MCPProtocolVersion, ⟨⟩, ⟨"knoxctl-mcp-scanner".toList, "1.0.0".toList⟩⟩

/-- Mirrors the `initialize` method of scanner.go (named `initializeMCP`
here): sends the `initialize` call, fails on a request error or a
populated JSON-RPC `error` field, then sends the
`notifications/initialized` notification, whose failure is only
logged. -/
def initializeMCP (s : Scanner) (w : World) :
    Except InitErr Unit × Scanner × World × List OutHTTP :=
  let p := nextRequestID s
  let request : JSONRPCRequest :=
    ⟨"2.0".toList, some p.1, "initialize".toList, some initParams⟩
  match sendRequest p.2 w request with
  | (.error e, s2, w2, o) => (.error (.requestFailed e), s2, w2, [o])
  | (.ok response, s2, w2, o) =>
    match response.error with
    | some err => (.error (.rpcError err), s2, w2, [o])
    | none =>
      let notification : JSONRPCRequest :=
        ⟨"2.0".toList, none, "notifications/initialized".toList, none⟩
      let r := sendNotification s2 w2 notification
      (.ok (), r.2.1, r.2.2.1, [o, r.2.2.2])

/-- Mirrors `listTools` of scanner.go: any failure (request error,
JSON-RPC `error` field, or result decoding failure) yields the empty
list; on success each `Tool` is projected to `ToolInfo`. -/
def listTools (s : Scanner) (w : World) :
    List ToolInfo × Scanner × World × List OutHTTP :=
  let p := nextRequestID s
  let request : JSONRPCRequest := ⟨"2.0".toList, some p.1, "tools/list".toList, none⟩
  match sendRequest p.2 w request with
  | (.error _, s2, w2, o) => ([], s2, w2, [o])
  | (.ok response, s2, w2, o) =>
    match response.error with
    | some _ => ([], s2, w2, [o])
    | none =>
      match decodeListToolsResult response.result with
      | none => ([], s2, w2, [o])
      | some lr => (lr.tools.map (fun t => ⟨t.name, t.description⟩), s2, w2, [o])

/-- Mirrors `listPrompts` of scanner.go. -/
def listPrompts (s : Scanner) (w : World) :
    List PromptInfo × Scanner × World × List OutHTTP :=
  let p := nextRequestID s
  let request : JSONRPCRequest := ⟨"2.0".toList, some p.1, "prompts/list".toList, none⟩
  match sendRequest p.2 w request with
  | (.error _, s2, w2, o) => ([], s2, w2, [o])
  | (.ok response, s2, w2, o) =>
    match response.error with
    | some _ => ([], s2, w2, [o])
    | none =>
      match decodeListPromptsResult response.result with
      | none => ([], s2, w2, [o])
      | some lr => (lr.prompts.map (fun t => ⟨t.name, t.description⟩), s2, w2, [o])

/-- Mirrors `listResources` of scanner.go. -/
def listResources (s : Scanner) (w : World) :
    List ResourceInfo × Scanner × World × List OutHTTP :=
  let p := nextRequestID s
  let request : JSONRPCRequest := ⟨"2.0".toList, some p.1, "resources/list".toList, none⟩
  match sendRequest p.2 w request with
  | (.error _, s2, w2, o) => ([], s2, w2, [o])
  | (.ok response, s2, w2, o) =>
    match response.error with
    | some _ => ([], s2, w2, [o])
    | none =>
      match decodeListResourcesResult response.result with
      | none => ([], s2, w2, [o])
      | some lr => (lr.resources.map (fun t => ⟨t.name, t.description, t.uri⟩), s2, w2, [o])

/-- The three listing calls of `Scan` (scanner.go lines 60-62), in the
fixed order tools, prompts, resources, threading scanner and world. -/
def scanLists (s : Scanner) (w : World) :
    ScanResult × Scanner × World × List OutHTTP :=
  let t := listTools s w
  let p := listPrompts t.2.1 t.2.2.1
  let r := listResources p.2.1 p.2.2.1
  (⟨t.1, p.1, r.1⟩, r.2.1, r.2.2.1, t.2.2.2 ++ p.2.2.2 ++ r.2.2.2)

/-- Mirrors `Scan` of scanner.go, for a scanner made by `New`.
`urlParse` abstracts `url.Parse` (success yields the string the parsed
URL renders back to); the world abstracts the HTTP server.  The
`ScanResult` component is the data handed to `displayResults`; the
analysis and display stage is out of scope. -/
def Scan (urlParse : Str → Option Str) (options : ScanOptions) (w : World) :
    Except ScanErr ScanResult × World × List OutHTTP :=
  match urlParse options.HTTPUrl with
  | none => (.error .invalidURL, w, [])
  | some _ =>
    match initializeMCP New w with
    | (.error e, _, w2, tr) => (.error (.initFailed e), w2, tr)
    | (.ok (), s2, w2, tr) =>
      let r := scanLists s2 w2
      (.ok r.1, r.2.2.1, tr ++ r.2.2.2)

/-! Derived characterizations of the transport functions.  Each is tied
to the mirrored source function by a proved equation, so the scan-level
claims can be settled by composing these characterizations. -/

/-- The session id after one call consuming the given transport outcome:
captured only from a status-200 response carrying a nonempty
`Mcp-Session-Id` header, otherwise unchanged (last writer wins). -/
def sessCapture (sid : Str) : Option HTTPResult → Str
  | none => sid
  | some .failure => sid
  | some (.success resp) =>
    if resp.statusCode ≠ 200 then sid
    else if resp.sessionHeader ≠ [] then resp.sessionHeader
    else sid

/-- The request header value attached for a given stored session id. -/
def hdrOfSess (sid : Str) : Option Str :=
  if sid = [] then none else some sid

/-- The call outcome of `sendRequest` for one transport outcome. -/
def callOutcome : Option HTTPResult → Except SendErr JSONRPCResponse
  | none => .error .httpFail
  | some .failure => .error .httpFail
  | some (.success resp) =>
    if resp.statusCode ≠ 200 then .error (.httpStatus resp.statusCode resp.body)
    else if resp.bodyErr then .error .readErr
    else processBody resp.body

/-- The outcome of `sendNotification` for one transport outcome. -/
def notifyOutcome : Option HTTPResult → Except SendErr Unit
  | none => .error .httpFail
  | some .failure => .error .httpFail
  | some (.success _) => .ok ()

/-- The list returned by `listTools` as a function of its call outcome. -/
def toolsFrom (o : Except SendErr JSONRPCResponse) : List ToolInfo :=
  match o with
  | .error _ => []
  | .ok response =>
    match response.error with
    | some _ => []
    | none =>
      match decodeListToolsResult response.result with
      | none => []
      | some lr => lr.tools.map (fun t => ⟨t.name, t.description⟩)

/-- The list returned by `listPrompts` as a function of its call outcome. -/
def promptsFrom (o : Except SendErr JSONRPCResponse) : List PromptInfo :=
  match o with
  | .error _ => []
  | .ok response =>
    match response.error with
    | some _ => []
    | none =>
      match decodeListPromptsResult response.result with
      | none => []
      | some lr => lr.prompts.map (fun t => ⟨t.name, t.description⟩)

/-- The list returned by `listResources` as a function of its call outcome. -/
def resourcesFrom (o : Except SendErr JSONRPCResponse) : List ResourceInfo :=
  match o with
  | .error _ => []
  | .ok response =>
    match response.error with
    | some _ => []
    | none =>
      match decodeListResourcesResult response.result with
      | none => []
      | some lr => lr.resources.map (fun t => ⟨t.name, t.description, t.uri⟩)

/-- The handshake outcome as a function of the `initialize` call outcome. -/
def initFrom (o : Except SendErr JSONRPCResponse) : Except InitErr Unit :=
  match o with
  | .error e => .error (.requestFailed e)
  | .ok response =>
    match response.error with
    | some err => .error (.rpcError err)
    | none => .ok ()

/-- The tools listing call fails at some stage: transport failure (which
includes a bad status, an unreadable or malformed body), a populated
JSON-RPC `error` field, or a result payload that does not decode. -/
def toolsCallFailed (r : Option HTTPResult) : Bool :=
  match callOutcome r with
  | .error _ => true
  | .ok response =>
    response.error.isSome || (decodeListToolsResult response.result).isNone

/-- The prompts listing call fails at some stage. -/
def promptsCallFailed (r : Option HTTPResult) : Bool :=
  match callOutcome r with
  | .error _ => true
  | .ok response =>
    response.error.isSome || (decodeListPromptsResult response.result).isNone

/-- The resources listing call fails at some stage. -/
def resourcesCallFailed (r : Option HTTPResult) : Bool :=
  match callOutcome r with
  | .error _ => true
  | .ok response =>
    response.error.isSome || (decodeListResourcesResult response.result).isNone

theorem sessionHeaderOf_eq (s : Scanner) : sessionHeaderOf s = hdrOfSess s.sessionID := rfl

theorem sessionHeaderOf_mk (n : Nat) (sid : Str) :
    sessionHeaderOf ⟨n, sid⟩ = hdrOfSess sid := rfl

/-- Full characterization of `sendRequest`: the outcome depends only on
the consumed transport outcome, exactly one world entry is consumed, the
request counter is untouched, the session id is captured only from a
status-200 response, and the emitted POST carries the prior session id. -/
theorem sendRequest_eq (s : Scanner) (w : World) (request : JSONRPCRequest) :
    sendRequest s w request =
      (callOutcome w.head?, ⟨s.requestID, sessCapture s.sessionID w.head?⟩, w.drop 1,
        ⟨request, sessionHeaderOf s⟩) := by
  match w with
  | [] => rfl
  | .failure :: rest => rfl
  | .success resp :: rest =>
    by_cases h200 : resp.statusCode = 200
    · by_cases hh : resp.sessionHeader = [] <;>
        by_cases hb : resp.bodyErr <;>
        simp [sendRequest, callOutcome, sessCapture, h200, hh, hb]
    · simp [sendRequest, callOutcome, sessCapture, h200]

/-- Full characterization of `sendNotification`: the scanner state is
returned untouched and one world entry is consumed. -/
theorem sendNotification_eq (s : Scanner) (w : World) (n : JSONRPCRequest) :
    sendNotification s w n =
      (notifyOutcome w.head?, s, w.drop 1, ⟨n, sessionHeaderOf s⟩) := by
  match w with
  | [] => rfl
  | .failure :: rest => rfl
  | .success resp :: rest => rfl

/-- Full characterization of `listTools`: the returned list is a
function of the consumed transport outcome alone, the request counter
advances by one, and exactly one POST with the current id and session
header is emitted. -/
theorem listTools_eq (s : Scanner) (w : World) :
    listTools s w =
      (toolsFrom (callOutcome w.head?),
       ⟨s.requestID + 1, sessCapture s.sessionID w.head?⟩, w.drop 1,
       [⟨⟨"2.0".toList, some s.requestID, "tools/list".toList, none⟩, sessionHeaderOf s⟩]) := by
  simp only [listTools, nextRequestID, sendRequest_eq]
  cases hc : callOutcome w.head? with
  | error e => simp [toolsFrom, sessionHeaderOf_eq, sessionHeaderOf_mk]
  | ok response =>
    cases hr : response.error with
    | some err => simp [toolsFrom, hr, sessionHeaderOf_eq, sessionHeaderOf_mk]
    | none =>
      cases hd : decodeListToolsResult response.result with
      | none => simp [toolsFrom, hr, hd, sessionHeaderOf_eq, sessionHeaderOf_mk]
      | some lr => simp [toolsFrom, hr, hd, sessionHeaderOf_eq, sessionHeaderOf_mk]

/-- Full characterization of `listPrompts`. -/
theorem listPrompts_eq (s : Scanner) (w : World) :
    listPrompts s w =
      (promptsFrom (callOutcome w.head?),
       ⟨s.requestID + 1, sessCapture s.sessionID w.head?⟩, w.drop 1,
       [⟨⟨"2.0".toList, some s.requestID, "prompts/list".toList, none⟩, sessionHeaderOf s⟩]) := by
  simp only [listPrompts, nextRequestID, sendRequest_eq]
  cases hc : callOutcome w.head? with
  | error e => simp [promptsFrom, sessionHeaderOf_eq, sessionHeaderOf_mk]
  | ok response =>
    cases hr : response.error with
    | some err => simp [promptsFrom, hr, sessionHeaderOf_eq, sessionHeaderOf_mk]
    | none =>
      cases hd : decodeListPromptsResult response.result with
      | none => simp [promptsFrom, hr, hd, sessionHeaderOf_eq, sessionHeaderOf_mk]
      | some lr => simp [promptsFrom, hr, hd, sessionHeaderOf_eq, sessionHeaderOf_mk]

/-- Full characterization of `listResources`. -/
theorem listResources_eq (s : Scanner) (w : World) :
    listResources s w =
      (resourcesFrom (callOutcome w.head?),
       ⟨s.requestID + 1, sessCapture s.sessionID w.head?⟩, w.drop 1,
       [⟨⟨"2.0".toList, some s.requestID, "resources/list".toList, none⟩, sessionHeaderOf s⟩]) := by
  simp only [listResources, nextRequestID, sendRequest_eq]
  cases hc : callOutcome w.head? with
  | error e => simp [resourcesFrom, sessionHeaderOf_eq, sessionHeaderOf_mk]
  | ok response =>
    cases hr : response.error with
    | some err => simp [resourcesFrom, hr, sessionHeaderOf_eq, sessionHeaderOf_mk]
    | none =>
      cases hd : decodeListResourcesResult response.result with
      | none => simp [resourcesFrom, hr, hd, sessionHeaderOf_eq, sessionHeaderOf_mk]
      | some lr => simp [resourcesFrom, hr, hd, sessionHeaderOf_eq, sessionHeaderOf_mk]

/-- The handshake result is a function of the `initialize` call
outcome. -/
theorem initializeMCP_result (s : Scanner) (w : World) :
    (initializeMCP s w).1 = initFrom (callOutcome w.head?) := by
  simp only [initializeMCP, nextRequestID, sendRequest_eq]
  cases hc : callOutcome w.head? with
  | error e => simp [initFrom]
  | ok response =>
    cases hr : response.error with
    | some err => simp [initFrom, hr]
    | none => simp [initFrom, hr, sendNotification_eq]

/-- Shape of a failed handshake: the error is returned, one world entry
was consumed, and only the `initialize` POST was emitted. -/
theorem initializeMCP_eq_err (s : Scanner) (w : World) (e : InitErr)
    (h : initFrom (callOutcome w.head?) = .error e) :
    initializeMCP s w =
      (.error e, ⟨s.requestID + 1, sessCapture s.sessionID w.head?⟩, w.drop 1,
       [⟨⟨"2.0".toList, some s.requestID, "initialize".toList, some initParams⟩,
         sessionHeaderOf s⟩]) := by
  simp only [initializeMCP, nextRequestID, sendRequest_eq]
  cases hc : callOutcome w.head? with
  | error e2 =>
    rw [hc] at h
    simp only [initFrom, Except.error.injEq] at h
    subst h
    simp [sessionHeaderOf_eq, sessionHeaderOf_mk]
  | ok response =>
    rw [hc] at h
    cases hr : response.error with
    | some err =>
      simp only [initFrom, hr, Except.error.injEq] at h
      subst h
      simp [hr, sessionHeaderOf_eq, sessionHeaderOf_mk]
    | none =>
      simp [initFrom, hr] at h

/-- Shape of a successful handshake: two world entries are consumed (the
`initialize` call and the `notifications/initialized` notification), the
session id captured from the first response is attached to the
notification, and the handshake succeeds whatever the notification's
transport outcome is. -/
theorem initializeMCP_eq_ok (s : Scanner) (w : World)
    (h : initFrom (callOutcome w.head?) = .ok ()) :
    initializeMCP s w =
      (.ok (), ⟨s.requestID + 1, sessCapture s.sessionID w.head?⟩, w.drop 2,
       [⟨⟨"2.0".toList, some s.requestID, "initialize".toList, some initParams⟩,
         sessionHeaderOf s⟩,
        ⟨⟨"2.0".toList, none, "notifications/initialized".toList, none⟩,
         hdrOfSess (sessCapture s.sessionID w.head?)⟩]) := by
  simp only [initializeMCP, nextRequestID, sendRequest_eq]
  cases hc : callOutcome w.head? with
  | error e2 =>
    rw [hc] at h
    simp [initFrom] at h
  | ok response =>
    rw [hc] at h
    cases hr : response.error with
    | some err =>
      simp [initFrom, hr] at h
    | none =>
      simp [hr, sendNotification_eq, sessionHeaderOf_eq, sessionHeaderOf_mk,
        List.drop_drop]

/-- Full characterization of the three listing calls of `Scan`: each
consumes one world entry in the fixed order, each list is a function of
its own transport outcome, ids advance by one per call, and each POST
carries the session id as updated by the preceding responses. -/
theorem scanLists_eq (s : Scanner) (w : World) :
    scanLists s w =
      (⟨toolsFrom (callOutcome w.head?),
        promptsFrom (callOutcome (w.drop 1).head?),
        resourcesFrom (callOutcome (w.drop 2).head?)⟩,
       ⟨s.requestID + 3,
        sessCapture (sessCapture (sessCapture s.sessionID w.head?) (w.drop 1).head?)
          (w.drop 2).head?⟩,
       w.drop 3,
       [⟨⟨"2.0".toList, some s.requestID, "tools/list".toList, none⟩, sessionHeaderOf s⟩,
        ⟨⟨"2.0".toList, some (s.requestID + 1), "prompts/list".toList, none⟩,
          hdrOfSess (sessCapture s.sessionID w.head?)⟩,
        ⟨⟨"2.0".toList, some (s.requestID + 2), "resources/list".toList, none⟩,
          hdrOfSess (sessCapture (sessCapture s.sessionID w.head?) (w.drop 1).head?)⟩]) := by
  simp [scanLists, listTools_eq, listPrompts_eq, listResources_eq, sessionHeaderOf_eq,
    sessionHeaderOf_mk, List.drop_drop]

/-- A scan with an unparsable URL fails before any network call: the
world is untouched and no POST is emitted. -/
theorem Scan_invalidURL (p : Str → Option Str) (opts : ScanOptions) (w : World)
    (h : p opts.HTTPUrl = none) : Scan p opts w = (.error .invalidURL, w, []) := by
  simp [Scan, h]

/-- A scan whose handshake fails stops after the `initialize` POST. -/
theorem Scan_initErr (p : Str → Option Str) (opts : ScanOptions) (w : World)
    (u : Str) (e : InitErr) (hu : p opts.HTTPUrl = some u)
    (h : initFrom (callOutcome w.head?) = .error e) :
    Scan p opts w =
      (.error (.initFailed e), w.drop 1,
       [⟨⟨"2.0".toList, some 1, "initialize".toList, some initParams⟩, none⟩]) := by
  simp only [Scan, hu]
  rw [initializeMCP_eq_err New w e h]
  simp [New, sessionHeaderOf_mk, hdrOfSess]

/-- Full characterization of a successful scan: five POSTs in the fixed
order with ids 1 to 4 (the notification carries no id), one world entry
consumed per POST, each listing a function of its own response, and each
POST carrying the last session id captured from the status-200 call
responses before it. -/
theorem Scan_ok_eq (p : Str → Option Str) (opts : ScanOptions) (w : World)
    (u : Str) (hu : p opts.HTTPUrl = some u)
    (h : initFrom (callOutcome w.head?) = .ok ()) :
    Scan p opts w =
      (.ok ⟨toolsFrom (callOutcome (w.drop 2).head?),
            promptsFrom (callOutcome (w.drop 3).head?),
            resourcesFrom (callOutcome (w.drop 4).head?)⟩,
       w.drop 5,
       [⟨⟨"2.0".toList, some 1, "initialize".toList, some initParams⟩, none⟩,
        ⟨⟨"2.0".toList, none, "notifications/initialized".toList, none⟩,
          hdrOfSess (sessCapture [] w.head?)⟩,
        ⟨⟨"2.0".toList, some 2, "tools/list".toList, none⟩,
          hdrOfSess (sessCapture [] w.head?)⟩,
        ⟨⟨"2.0".toList, some 3, "prompts/list".toList, none⟩,
          hdrOfSess (sessCapture (sessCapture [] w.head?) (w.drop 2).head?)⟩,
        ⟨⟨"2.0".toList, some 4, "resources/list".toList, none⟩,
          hdrOfSess (sessCapture (sessCapture (sessCapture [] w.head?) (w.drop 2).head?)
            (w.drop 3).head?)⟩]) := by
  simp only [Scan, hu]
  rw [initializeMCP_eq_ok New w h]
  simp [scanLists_eq, New, sessionHeaderOf_mk, hdrOfSess, List.drop_drop]

/-! String lemmas about prefixes, trimming and line-splitting, used to
settle the SSE framing claims. -/

theorem hasPfx_append_self (p x : Str) : hasPfx p (p ++ x) = true := by
  induction p with
  | nil => rfl
  | cons c cs ih => simp [hasPfx, ih]

theorem hasPfx_exists {p s : Str} (h : hasPfx p s = true) : ∃ t, s = p ++ t := by
  induction p generalizing s with
  | nil => exact ⟨s, rfl⟩
  | cons c cs ih =>
    cases s with
    | nil => simp [hasPfx] at h
    | cons b bs =>
      simp only [hasPfx, Bool.and_eq_true, beq_iff_eq] at h
      obtain ⟨t, ht⟩ := ih h.2
      exact ⟨t, by simp [h.1, ht]⟩

theorem hasPfx_append_of {p e : Str} (x : Str) (h : hasPfx p e = true) :
    hasPfx p (e ++ x) = true := by
  obtain ⟨t, rfl⟩ := hasPfx_exists h
  rw [List.append_assoc]
  exact hasPfx_append_self p (t ++ x)

theorem splitNL_append {e : Str} (r : Str) (h : '\n' ∉ e) :
    splitNL (e ++ '\n' :: r) = e :: splitNL r := by
  induction e with
  | nil => simp [splitNL]
  | cons c cs ih =>
    have hc : c ≠ '\n' := fun hcn => h (hcn ▸ List.mem_cons_self c cs)
    have hcs : '\n' ∉ cs := fun hm => h (List.mem_cons_of_mem c hm)
    simp only [List.cons_append, splitNL, beq_iff_eq, if_neg hc]
    rw [show cs.append ('\n' :: r) = cs ++ '\n' :: r from rfl, ih hcs]

theorem length_dropWhile_le (q : Char → Bool) (l : Str) :
    (l.dropWhile q).length ≤ l.length := by
  induction l with
  | nil => simp
  | cons c cs ih =>
    by_cases hq : q c
    · simp only [List.dropWhile_cons, if_pos hq]
      exact Nat.le_trans ih (Nat.le_succ _)
    · simp [List.dropWhile_cons, hq]

theorem dropWhile_length_eq {q : Char → Bool} {l : Str}
    (h : (l.dropWhile q).length = l.length) : l.dropWhile q = l := by
  induction l with
  | nil => rfl
  | cons c cs ih =>
    by_cases hq : q c
    · exfalso
      rw [List.dropWhile_cons, if_pos hq] at h
      have hle := length_dropWhile_le q cs
      simp only [List.length_cons] at h
      omega
    · rw [List.dropWhile_cons, if_neg hq]

theorem dropWhile_cons_self {q : Char → Bool} {c : Char} {t : Str}
    (h : List.dropWhile q (c :: t) = c :: t) : q c = false := by
  by_cases hq : q c
  · exfalso
    rw [List.dropWhile_cons, if_pos hq] at h
    have h1 := length_dropWhile_le q t
    rw [h] at h1
    simp at h1
  · exact Bool.of_not_eq_true hq

/-- A string equal to its own trim is untouched by a leading and by a
trailing whitespace strip. -/
theorem trim_eq_self {P : Str} (h : trimSpace P = P) :
    P.dropWhile isSpaceCh = P ∧ P.reverse.dropWhile isSpaceCh = P.reverse := by
  have hlen : (trimSpace P).length = P.length := by rw [h]
  have h1 : (P.dropWhile isSpaceCh).length ≤ P.length := length_dropWhile_le _ _
  have h2 : ((P.dropWhile isSpaceCh).reverse.dropWhile isSpaceCh).length ≤
      (P.dropWhile isSpaceCh).length := by
    have := length_dropWhile_le isSpaceCh (P.dropWhile isSpaceCh).reverse
    simpa using this
  have h3 : (trimSpace P).length =
      ((P.dropWhile isSpaceCh).reverse.dropWhile isSpaceCh).length := by
    simp [trimSpace]
  have hA : (P.dropWhile isSpaceCh).length = P.length := by omega
  have hAe : P.dropWhile isSpaceCh = P := dropWhile_length_eq hA
  refine ⟨hAe, ?_⟩
  apply dropWhile_length_eq
  rw [hAe] at h3
  have hrl : P.reverse.length = P.length := List.length_reverse P
  omega

/-- Trimming does not disturb a `data: `-prefixed line whose payload is
already trimmed. -/
theorem trimSpace_data_line {P : Str} (h : trimSpace P = P) (hne : P ≠ []) :
    trimSpace ("data: ".toList ++ P) = "data: ".toList ++ P := by
  obtain ⟨-, hrev⟩ := trim_eq_self h
  have hPrev : P.reverse ≠ [] := by simpa using hne
  obtain ⟨c, t, hct⟩ := List.exists_cons_of_ne_nil hPrev
  have hc : isSpaceCh c = false := dropWhile_cons_self (hct ▸ hrev)
  show (((("data: ".toList ++ P).dropWhile isSpaceCh).reverse.dropWhile isSpaceCh).reverse) =
    "data: ".toList ++ P
  have hstep1 : ("data: ".toList ++ P).dropWhile isSpaceCh = "data: ".toList ++ P := by
    simp [List.dropWhile_cons, show isSpaceCh 'd' = false from rfl]
  rw [hstep1, List.reverse_append, hct]
  have hstep2 : List.dropWhile isSpaceCh ((c :: t) ++ "data: ".toList.reverse) =
      (c :: t) ++ "data: ".toList.reverse := by
    simp [List.dropWhile_cons, hc]
  rw [List.cons_append] at hstep2 ⊢
  rw [hstep2]
  rw [← List.cons_append, ← hct, List.reverse_append, List.reverse_reverse,
    List.reverse_reverse]

/-- Trimming keeps the `event:` preamble of an event line. -/
theorem trimSpace_event_line {e : Str} (h : hasPfx "event:".toList e = true) :
    hasPfx "event:".toList (trimSpace e) = true := by
  obtain ⟨t, rfl⟩ := hasPfx_exists h
  show hasPfx "event:".toList
    (((("event:".toList ++ t).dropWhile isSpaceCh).reverse.dropWhile isSpaceCh).reverse) = true
  have hstep1 : ("event:".toList ++ t).dropWhile isSpaceCh = "event:".toList ++ t := by
    simp [List.dropWhile_cons, show isSpaceCh 'e' = false from rfl]
  rw [hstep1, List.reverse_append]
  have hstep2 : List.dropWhile isSpaceCh (t.reverse ++ "event:".toList.reverse) =
      t.reverse.dropWhile isSpaceCh ++ "event:".toList.reverse := by
    rw [List.dropWhile_append]
    by_cases hemp : (t.reverse.dropWhile isSpaceCh).isEmpty
    · simp only [hemp, if_true, List.isEmpty_iff.mp hemp, List.nil_append]
      decide
    · simp [hemp]
  rw [hstep2, List.reverse_append, List.reverse_reverse]
  exact hasPfx_append_self _ _

/-- An `event:` line is never a `data: ` line. -/
theorem event_line_not_data {t : Str} (h : hasPfx "event:".toList t = true) :
    hasPfx "data: ".toList t = false := by
  obtain ⟨r, rfl⟩ := hasPfx_exists h
  rfl

/-- The SSE parser extracts exactly the payload of the single `data: `
line of a well-formed SSE frame. -/
theorem parseSSE_frame {e P : Str} (he : hasPfx "event:".toList e = true)
    (hen : '\n' ∉ e) (hpn : '\n' ∉ P) (htr : trimSpace P = P) (hne : P ≠ []) :
    parseSSEResponse (e ++ '\n' :: ("data: ".toList ++ P ++ ['\n', '\n'])) = some P := by
  have hdp : '\n' ∉ "data: ".toList ++ P := by
    intro hm
    rcases List.mem_append.mp hm with h1 | h1
    · revert h1
      decide
    · exact hpn h1
  have hsplit2 : splitNL ("data: ".toList ++ P ++ ['\n', '\n']) =
      ("data: ".toList ++ P) :: splitNL ['\n'] := by
    have : "data: ".toList ++ P ++ ['\n', '\n'] =
        ("data: ".toList ++ P) ++ '\n' :: ['\n'] := by simp
    rw [this, splitNL_append _ hdp]
  rw [parseSSEResponse, splitNL_append _ hen, hsplit2]
  show findDataLine ((e :: ("data: ".toList ++ P) :: [] :: [[]]) : List Str) = some P
  rw [findDataLine]
  simp only [event_line_not_data (trimSpace_event_line he), if_false, Bool.false_eq_true]
  rw [findDataLine]
  simp only [trimSpace_data_line htr hne, hasPfx_append_self, if_true]
  rw [trimPfx, if_pos (hasPfx_append_self _ _)]
  exact congrArg some (List.drop_left _ _)

/-- A body whose lines never carry the `data: ` prefix yields the SSE
framing error. -/
theorem findDataLine_none {ls : List Str}
    (h : ∀ l ∈ ls, hasPfx "data: ".toList (trimSpace l) = false) :
    findDataLine ls = none := by
  induction ls with
  | nil => rfl
  | cons l ls ih =>
    rw [findDataLine]
    simp only [h l (List.mem_cons_self l ls), if_false, Bool.false_eq_true]
    exact ih (fun x hx => h x (List.mem_cons_of_mem l hx))

/-- No JSON payload starts with the SSE preamble `event:`. -/
theorem jsonParse_event_none {P : Str} (h : hasPfx "event:".toList P = true) :
    jsonParse P = none := by
  obtain ⟨t, rfl⟩ := hasPfx_exists h
  show jsonParse ('e' :: ("vent:".toList ++ t)) = none
  rw [jsonParse]
  have hf : 2 * ('e' :: ("vent:".toList ++ t)).length + 2 =
      (2 * ('e' :: ("vent:".toList ++ t)).length + 1) + 1 := rfl
  rw [hf, parseStep]
  have hws : skipWs ('e' :: ("vent:".toList ++ t)) = 'e' :: ("vent:".toList ++ t) := by
    simp [skipWs, List.dropWhile_cons, show isSpaceCh 'e' = false from rfl]
  rw [hws]
  simp [show ('e' == '\x7b') = false from rfl, show ('e' == '[') = false from rfl,
    show ('e' == '\"') = false from rfl, show ('e' == 't') = false from rfl,
    show ('e' == 'f') = false from rfl, show ('e' == 'n') = false from rfl,
    show ('e' == '-') = false from rfl, show ('e'.isDigit) = false from rfl]

/-! Claim theorems. -/

theorem toolsFrom_empty_of_failed {r : Option HTTPResult}
    (h : toolsCallFailed r = true) : toolsFrom (callOutcome r) = [] := by
  cases hc : callOutcome r with
  | error e => simp [toolsFrom]
  | ok response =>
    simp only [toolsCallFailed, hc, Bool.or_eq_true, Option.isSome_iff_exists,
      Option.isNone_iff_eq_none] at h
    rcases h with ⟨err, herr⟩ | hdec
    · simp [toolsFrom, herr]
    · cases he : response.error with
      | some err => simp [toolsFrom, he]
      | none => simp [toolsFrom, he, hdec]

theorem promptsFrom_empty_of_failed {r : Option HTTPResult}
    (h : promptsCallFailed r = true) : promptsFrom (callOutcome r) = [] := by
  cases hc : callOutcome r with
  | error e => simp [promptsFrom]
  | ok response =>
    simp only [promptsCallFailed, hc, Bool.or_eq_true, Option.isSome_iff_exists,
      Option.isNone_iff_eq_none] at h
    rcases h with ⟨err, herr⟩ | hdec
    · simp [promptsFrom, herr]
    · cases he : response.error with
      | some err => simp [promptsFrom, he]
      | none => simp [promptsFrom, he, hdec]

theorem resourcesFrom_empty_of_failed {r : Option HTTPResult}
    (h : resourcesCallFailed r = true) : resourcesFrom (callOutcome r) = [] := by
  cases hc : callOutcome r with
  | error e => simp [resourcesFrom]
  | ok response =>
    simp only [resourcesCallFailed, hc, Bool.or_eq_true, Option.isSome_iff_exists,
      Option.isNone_iff_eq_none] at h
    rcases h with ⟨err, herr⟩ | hdec
    · simp [resourcesFrom, herr]
    · cases he : response.error with
      | some err => simp [resourcesFrom, he]
      | none => simp [resourcesFrom, he, hdec]

/-- C1: for every capability category, if the listing call for that
category fails at any stage — transport failure (including a bad status,
an unreadable or malformed body), a populated JSON-RPC `error` field, or
a failure to decode the result payload — then that category's list is
empty (no error is propagated: the listing functions return plain lists
by construction), and the other two categories' results are unchanged by
that failure: each category's list is a function of its own transport
outcome only (the head of the world slice that category consumes), so
whatever happens on one category's call cannot alter the other two. -/
theorem C1_listing_failure_isolation :
    (∀ (s : Scanner) (w : World),
      toolsCallFailed w.head? = true → (scanLists s w).1.tools = []) ∧
    (∀ (s : Scanner) (w : World),
      promptsCallFailed (w.drop 1).head? = true → (scanLists s w).1.prompts = []) ∧
    (∀ (s : Scanner) (w : World),
      resourcesCallFailed (w.drop 2).head? = true → (scanLists s w).1.resources = []) ∧
    (∀ (s s2 : Scanner) (w w2 : World), w.head? = w2.head? →
      (scanLists s w).1.tools = (scanLists s2 w2).1.tools) ∧
    (∀ (s s2 : Scanner) (w w2 : World), (w.drop 1).head? = (w2.drop 1).head? →
      (scanLists s w).1.prompts = (scanLists s2 w2).1.prompts) ∧
    (∀ (s s2 : Scanner) (w w2 : World), (w.drop 2).head? = (w2.drop 2).head? →
      (scanLists s w).1.resources = (scanLists s2 w2).1.resources) := by
  refine ⟨?_, ?_, ?_, ?_, ?_, ?_⟩
  · intro s w h
    rw [scanLists_eq]
    exact toolsFrom_empty_of_failed h
  · intro s w h
    rw [scanLists_eq]
    exact promptsFrom_empty_of_failed h
  · intro s w h
    rw [scanLists_eq]
    exact resourcesFrom_empty_of_failed h
  · intro s s2 w w2 h
    rw [scanLists_eq, scanLists_eq, h]
  · intro s s2 w w2 h
    rw [scanLists_eq, scanLists_eq]
    show promptsFrom (callOutcome (w.drop 1).head?) = promptsFrom (callOutcome (w2.drop 1).head?)
    rw [h]
  · intro s s2 w w2 h
    rw [scanLists_eq, scanLists_eq]
    show resourcesFrom (callOutcome (w.drop 2).head?) = resourcesFrom (callOutcome (w2.drop 2).head?)
    rw [h]

theorem C1_witness :
    (scanLists New [.failure, .failure, .failure]).1.tools = [] ∧
    (scanLists New [.failure, .failure, .failure]).1.prompts = [] ∧
    (scanLists New [.failure, .failure, .failure]).1.resources = [] ∧
    (scanLists New [.failure]).1.prompts =
      (scanLists ⟨7, "X".toList⟩ [.success ⟨200, [], [], false⟩]).1.prompts :=
  ⟨C1_listing_failure_isolation.1 New [.failure, .failure, .failure] rfl,
   C1_listing_failure_isolation.2.1 New [.failure, .failure, .failure] rfl,
   C1_listing_failure_isolation.2.2.1 New [.failure, .failure, .failure] rfl,
   C1_listing_failure_isolation.2.2.2.2.1 New ⟨7, "X".toList⟩ [.failure]
     [.success ⟨200, [], [], false⟩] rfl⟩

/-- C9: the notify operation never raises an error for any HTTP status
(a 4xx or 5xx status is only logged), and a failed delivery of the
`notifications/initialized` notification does not abort the scan: once
the `initialize` call has returned an error-free envelope, the handshake
succeeds whatever the remaining world holds for the notification. -/
theorem C9_notifications_best_effort :
    (∀ (s : Scanner) (resp : HTTPResponse) (t : World) (n : JSONRPCRequest),
      (sendNotification s (.success resp :: t) n).1 = .ok ()) ∧
    (∀ (s : Scanner) (w : World) (r : JSONRPCResponse),
      callOutcome w.head? = .ok r → r.error = none →
      (initializeMCP s w).1 = .ok ()) := by
  constructor
  · intro s resp t n
    rw [sendNotification_eq]
    rfl
  · intro s w r hc he
    rw [initializeMCP_result, hc]
    simp [initFrom, he]

theorem C9_witness :
    (sendNotification New [.success ⟨500, [], "oops".toList, false⟩]
      ⟨"2.0".toList, none, "notifications/initialized".toList, none⟩).1 = .ok () ∧
    (initializeMCP New
      [.success ⟨200, [],
        "\x7b\"jsonrpc\":\"2.0\",\"id\":1,\"result\":\x7b\x7d\x7d".toList, false⟩]).1 = .ok () :=
  ⟨C9_notifications_best_effort.1 New ⟨500, [], "oops".toList, false⟩ []
    ⟨"2.0".toList, none, "notifications/initialized".toList, none⟩,
   C9_notifications_best_effort.2 New
    [.success ⟨200, [],
      "\x7b\"jsonrpc\":\"2.0\",\"id\":1,\"result\":\x7b\x7d\x7d".toList, false⟩]
    ⟨"2.0".toList, .num 1, .obj [], none⟩ rfl rfl⟩

/-- C10: the stored session identifier is written only by the send
operation and only after the response status has been checked to be
HTTP 200: a notification never touches the scanner state, a call leaves
the request counter unchanged and updates the session id exactly as
`sessCapture` does — keeping the old value unless the consumed response
has status 200 and a nonempty session header — and in particular a
non-200 response leaves the scanner unchanged even when it carries a
session header. -/
theorem C10_session_write_discipline :
    (∀ (s : Scanner) (w : World) (n : JSONRPCRequest),
      (sendNotification s w n).2.1 = s) ∧
    (∀ (s : Scanner) (w : World) (req : JSONRPCRequest),
      (sendRequest s w req).2.1.requestID = s.requestID ∧
      (sendRequest s w req).2.1.sessionID = sessCapture s.sessionID w.head?) ∧
    (∀ (s : Scanner) (req : JSONRPCRequest) (resp : HTTPResponse) (t : World),
      resp.statusCode ≠ 200 → (sendRequest s (.success resp :: t) req).2.1 = s) := by
  refine ⟨?_, ?_, ?_⟩
  · intro s w n
    rw [sendNotification_eq]
  · intro s w req
    rw [sendRequest_eq]
    exact ⟨rfl, rfl⟩
  · intro s req resp t h
    rw [sendRequest_eq]
    show ({ requestID := s.requestID,
            sessionID := sessCapture s.sessionID (some (.success resp)) } : Scanner) = s
    simp [sessCapture, h]

theorem C10_witness :
    (sendRequest New [.success ⟨500, "S".toList, [], false⟩]
      ⟨"2.0".toList, some 1, "tools/list".toList, none⟩).2.1 = New :=
  C10_session_write_discipline.2.2 New
    ⟨"2.0".toList, some 1, "tools/list".toList, none⟩
    ⟨500, "S".toList, [], false⟩ [] (by decide)

/-- C2: a scan fails exactly when the target URL fails to parse (the
`invalidURL` error) or the handshake fails (the `initFailed` error); in
every other execution — whatever the three listing calls do — it
completes with a `ScanResult` whose categories may be empty.  The three
equivalences classify every possible outcome of `Scan`. -/
theorem C2_scan_failure_classification (p : Str → Option Str) (opts : ScanOptions)
    (w : World) :
    ((Scan p opts w).1 = .error .invalidURL ↔ p opts.HTTPUrl = none) ∧
    (∀ e : InitErr, (Scan p opts w).1 = .error (.initFailed e) ↔
      ((∃ u, p opts.HTTPUrl = some u) ∧ (initializeMCP New w).1 = .error e)) ∧
    ((∃ r, (Scan p opts w).1 = .ok r) ↔
      ((∃ u, p opts.HTTPUrl = some u) ∧ (initializeMCP New w).1 = .ok ())) := by
  cases hp : p opts.HTTPUrl with
  | none =>
    rw [Scan_invalidURL p opts w hp]
    simp [hp]
  | some u =>
    have hres := initializeMCP_result New w
    cases hi : initFrom (callOutcome w.head?) with
    | error e0 =>
      rw [Scan_initErr p opts w u e0 hp hi]
      rw [hi] at hres
      refine ⟨by simp [hp], fun e => ?_, by simp [hres]⟩
      simp [hres, hp]
    | ok u0 =>
      cases u0
      rw [Scan_ok_eq p opts w u hp hi]
      rw [hi] at hres
      refine ⟨by simp [hp], fun e => ?_, by simp [hres, hp]⟩
      simp [hres, hp]

theorem C2_witness :
    ((Scan (fun _ => none) ⟨[]⟩ []).1 = .error .invalidURL ↔
      (fun (_ : Str) => (none : Option Str)) ([] : Str) = none) ∧
    ((Scan (fun _ => none) ⟨[]⟩ []).1 = .error (.initFailed (.requestFailed .httpFail)) ↔
      ((∃ u, (fun (_ : Str) => (none : Option Str)) ([] : Str) = some u) ∧
        (initializeMCP New []).1 = .error (.requestFailed .httpFail))) ∧
    ((∃ r, (Scan (fun _ => none) ⟨[]⟩ []).1 = .ok r) ↔
      ((∃ u, (fun (_ : Str) => (none : Option Str)) ([] : Str) = some u) ∧
        (initializeMCP New []).1 = .ok ())) :=
  ⟨(C2_scan_failure_classification (fun _ => none) ⟨[]⟩ []).1,
   (C2_scan_failure_classification (fun _ => none) ⟨[]⟩ []).2.1
     (.requestFailed .httpFail),
   (C2_scan_failure_classification (fun _ => none) ⟨[]⟩ []).2.2⟩

/-- C7: when the `initialize` call receives a non-200 HTTP status the
scan fails with a handshake error wrapping that status, only one world
entry is consumed, and the single emitted POST is the `initialize`
request — none of the three listing calls is ever attempted. -/
theorem C7_handshake_status_aborts (p : Str → Option Str) (opts : ScanOptions)
    (u : Str) (resp : HTTPResponse) (t : World)
    (hu : p opts.HTTPUrl = some u) (hs : resp.statusCode ≠ 200) :
    Scan p opts (.success resp :: t) =
      (.error (.initFailed (.requestFailed (.httpStatus resp.statusCode resp.body))), t,
       [⟨⟨"2.0".toList, some 1, "initialize".toList, some initParams⟩, none⟩]) ∧
    ∀ o ∈ (Scan p opts (.success resp :: t)).2.2, o.req.method = "initialize".toList := by
  have hi : initFrom (callOutcome ((HTTPResult.success resp :: t : World)).head?) =
      .error (.requestFailed (.httpStatus resp.statusCode resp.body)) := by
    simp [callOutcome, hs, initFrom]
  have hscan := Scan_initErr p opts (.success resp :: t) u _ hu hi
  refine ⟨by simpa using hscan, ?_⟩
  intro o ho
  rw [hscan] at ho
  simp at ho
  rw [ho]
  rfl

theorem C7_witness :
    Scan (fun s => some s) ⟨"http://h".toList⟩ [.success ⟨500, [], "boom".toList, false⟩] =
      (.error (.initFailed (.requestFailed (.httpStatus 500 "boom".toList))),
       ([] : World),
       [⟨⟨"2.0".toList, some 1, "initialize".toList, some initParams⟩, none⟩]) :=
  (C7_handshake_status_aborts (fun s => some s) ⟨"http://h".toList⟩ "http://h".toList
    ⟨500, [], "boom".toList, false⟩ [] rfl (by decide)).1

/-- C3: in a completed scan the request ids assigned to `initialize`,
`tools/list`, `prompts/list` and `resources/list` are exactly 1, 2, 3, 4
— strictly increasing from 1 with no gaps or repeats — the notification
in between carries no id, and the five POSTs occur in the fixed order. -/
theorem C3_request_ids_sequential (p : Str → Option Str) (opts : ScanOptions)
    (w : World) (r : ScanResult) (w2 : World) (tr : List OutHTTP)
    (h : Scan p opts w = (.ok r, w2, tr)) :
    tr.map (fun o => o.req.id) = [some 1, none, some 2, some 3, some 4] ∧
    tr.map (fun o => o.req.method) =
      ["initialize".toList, "notifications/initialized".toList, "tools/list".toList,
       "prompts/list".toList, "resources/list".toList] := by
  cases hp : p opts.HTTPUrl with
  | none =>
    rw [Scan_invalidURL p opts w hp] at h
    simp at h
  | some u =>
    cases hi : initFrom (callOutcome w.head?) with
    | error e0 =>
      rw [Scan_initErr p opts w u e0 hp hi] at h
      simp at h
    | ok u0 =>
      cases u0
      rw [Scan_ok_eq p opts w u hp hi] at h
      have htr := congrArg (fun x => x.2.2) h
      simp only at htr
      rw [← htr]
      constructor <;> rfl

theorem C3_witness :
    (Scan (fun s => some s) ⟨"http://h".toList⟩
      [.success ⟨200, [],
        "\x7b\"jsonrpc\":\"2.0\",\"id\":1,\"result\":\x7b\x7d\x7d".toList, false⟩,
       .failure, .failure, .failure, .failure] =
      (.ok ⟨[], [], []⟩, ([] : World),
       [⟨⟨"2.0".toList, some 1, "initialize".toList, some initParams⟩, none⟩,
        ⟨⟨"2.0".toList, none, "notifications/initialized".toList, none⟩, none⟩,
        ⟨⟨"2.0".toList, some 2, "tools/list".toList, none⟩, none⟩,
        ⟨⟨"2.0".toList, some 3, "prompts/list".toList, none⟩, none⟩,
        ⟨⟨"2.0".toList, some 4, "resources/list".toList, none⟩, none⟩])) ∧
    ([⟨⟨"2.0".toList, some 1, "initialize".toList, some initParams⟩, none⟩,
      ⟨⟨"2.0".toList, none, "notifications/initialized".toList, none⟩, none⟩,
      ⟨⟨"2.0".toList, some 2, "tools/list".toList, none⟩, none⟩,
      ⟨⟨"2.0".toList, some 3, "prompts/list".toList, none⟩, none⟩,
      ⟨⟨"2.0".toList, some 4, "resources/list".toList, none⟩,
        none⟩] : List OutHTTP).map (fun o => o.req.id) =
      [some 1, none, some 2, some 3, some 4] :=
  have hscan : Scan (fun s => some s) ⟨"http://h".toList⟩
      [.success ⟨200, [],
        "\x7b\"jsonrpc\":\"2.0\",\"id\":1,\"result\":\x7b\x7d\x7d".toList, false⟩,
       .failure, .failure, .failure, .failure] =
      (.ok ⟨[], [], []⟩, ([] : World),
       [⟨⟨"2.0".toList, some 1, "initialize".toList, some initParams⟩, none⟩,
        ⟨⟨"2.0".toList, none, "notifications/initialized".toList, none⟩, none⟩,
        ⟨⟨"2.0".toList, some 2, "tools/list".toList, none⟩, none⟩,
        ⟨⟨"2.0".toList, some 3, "prompts/list".toList, none⟩, none⟩,
        ⟨⟨"2.0".toList, some 4, "resources/list".toList, none⟩, none⟩]) := by rfl
  ⟨hscan,
   (C3_request_ids_sequential (fun s => some s) ⟨"http://h".toList⟩ _ _ _ _ hscan).1⟩

/-- C6: over a completed scan the session header attached to each of the
five POSTs is exactly the last session id captured so far: the first
request carries none, and every later request carries the value folded
by `sessCapture` over the status-200 call responses before it — once a
value is observed it is attached to every subsequent request, and a
later differing value replaces it (last writer wins).  Responses to the
fire-and-forget notification (world index 1) are never captured. -/
theorem C6_session_header_propagation (p : Str → Option Str) (opts : ScanOptions)
    (w : World) (r : ScanResult) (w2 : World) (tr : List OutHTTP)
    (h : Scan p opts w = (.ok r, w2, tr)) :
    tr.map (fun o => o.sessionHeader) =
      [none,
       hdrOfSess (sessCapture [] w.head?),
       hdrOfSess (sessCapture [] w.head?),
       hdrOfSess (sessCapture (sessCapture [] w.head?) (w.drop 2).head?),
       hdrOfSess (sessCapture (sessCapture (sessCapture [] w.head?) (w.drop 2).head?)
         (w.drop 3).head?)] := by
  cases hp : p opts.HTTPUrl with
  | none =>
    rw [Scan_invalidURL p opts w hp] at h
    simp at h
  | some u =>
    cases hi : initFrom (callOutcome w.head?) with
    | error e0 =>
      rw [Scan_initErr p opts w u e0 hp hi] at h
      simp at h
    | ok u0 =>
      cases u0
      rw [Scan_ok_eq p opts w u hp hi] at h
      have htr := congrArg (fun x => x.2.2) h
      simp only at htr
      rw [← htr]
      rfl

theorem C6_witness :
    Scan (fun s => some s) ⟨"http://h".toList⟩
      [.success ⟨200, "A".toList,
        "\x7b\"jsonrpc\":\"2.0\",\"id\":1,\"result\":\x7b\x7d\x7d".toList, false⟩,
       .success ⟨200, "B".toList, [], false⟩,
       .success ⟨200, "C".toList, [], false⟩,
       .failure,
       .success ⟨200, [], [], false⟩] =
      (.ok ⟨[], [], []⟩, ([] : World),
       [⟨⟨"2.0".toList, some 1, "initialize".toList, some initParams⟩, none⟩,
        ⟨⟨"2.0".toList, none, "notifications/initialized".toList, none⟩, some "A".toList⟩,
        ⟨⟨"2.0".toList, some 2, "tools/list".toList, none⟩, some "A".toList⟩,
        ⟨⟨"2.0".toList, some 3, "prompts/list".toList, none⟩, some "C".toList⟩,
        ⟨⟨"2.0".toList, some 4, "resources/list".toList, none⟩, some "C".toList⟩]) ∧
    ([⟨⟨"2.0".toList, some 1, "initialize".toList, some initParams⟩, none⟩,
      ⟨⟨"2.0".toList, none, "notifications/initialized".toList, none⟩, some "A".toList⟩,
      ⟨⟨"2.0".toList, some 2, "tools/list".toList, none⟩, some "A".toList⟩,
      ⟨⟨"2.0".toList, some 3, "prompts/list".toList, none⟩, some "C".toList⟩,
      ⟨⟨"2.0".toList, some 4, "resources/list".toList, none⟩,
        some "C".toList⟩] : List OutHTTP).map (fun o => o.sessionHeader) =
      [none, some "A".toList, some "A".toList, some "C".toList, some "C".toList] :=
  have hscan : Scan (fun s => some s) ⟨"http://h".toList⟩
      [.success ⟨200, "A".toList,
        "\x7b\"jsonrpc\":\"2.0\",\"id\":1,\"result\":\x7b\x7d\x7d".toList, false⟩,
       .success ⟨200, "B".toList, [], false⟩,
       .success ⟨200, "C".toList, [], false⟩,
       .failure,
       .success ⟨200, [], [], false⟩] =
      (.ok ⟨[], [], []⟩, ([] : World),
       [⟨⟨"2.0".toList, some 1, "initialize".toList, some initParams⟩, none⟩,
        ⟨⟨"2.0".toList, none, "notifications/initialized".toList, none⟩, some "A".toList⟩,
        ⟨⟨"2.0".toList, some 2, "tools/list".toList, none⟩, some "A".toList⟩,
        ⟨⟨"2.0".toList, some 3, "prompts/list".toList, none⟩, some "C".toList⟩,
        ⟨⟨"2.0".toList, some 4, "resources/list".toList, none⟩, some "C".toList⟩]) := by rfl
  ⟨hscan, C6_session_header_propagation (fun s => some s) ⟨"http://h".toList⟩ _ _ _ _ hscan⟩

/-- The body-processing stage treats a well-formed SSE frame around a
payload exactly as it treats the bare payload. -/
theorem processBody_frame {e P : Str} (he : hasPfx "event:".toList e = true)
    (hen : '\n' ∉ e) (hpn : '\n' ∉ P) (htr : trimSpace P = P) (hne : P ≠ [])
    (hPev : hasPfx "event:".toList P = false) :
    processBody (e ++ '\n' :: ("data: ".toList ++ P ++ ['\n', '\n'])) =
      processBody P := by
  have hbody : hasPfx "event:".toList
      (e ++ '\n' :: ("data: ".toList ++ P ++ ['\n', '\n'])) = true :=
    hasPfx_append_of _ he
  have hneg : ¬ hasPfx "event:".toList P = true := by
    rw [hPev]
    simp
  simp only [processBody]
  rw [if_pos hbody, if_neg hneg, parseSSE_frame he hen hpn htr hne]

/-- C4: an SSE-framed response body whose first line is an `event:` line
and whose single `data: ` line carries the JSON payload P decodes to
exactly the same response envelope as a response whose bare body is P:
the entire outcome of the send operation (decoded envelope or error,
scanner state, remaining world, emitted POST) is identical for the two
bodies.  The first conjunct shows a body accepted by the JSON parser
never starts with the SSE preamble, so the bare payload is indeed taken
as JSON directly. -/
theorem C4_sse_bare_equivalence :
    (∀ P : Str, (jsonParse P).isSome = true → hasPfx "event:".toList P = false) ∧
    (∀ (s : Scanner) (req : JSONRPCRequest) (e P hdr : Str) (t : World),
      hasPfx "event:".toList e = true → '\n' ∉ e → '\n' ∉ P →
      trimSpace P = P → P ≠ [] → hasPfx "event:".toList P = false →
      sendRequest s
        (.success ⟨200, hdr, e ++ '\n' :: ("data: ".toList ++ P ++ ['\n', '\n']),
          false⟩ :: t) req =
      sendRequest s (.success ⟨200, hdr, P, false⟩ :: t) req) := by
  constructor
  · intro P h
    by_cases he : hasPfx "event:".toList P = true
    · rw [jsonParse_event_none he] at h
      simp at h
    · exact Bool.of_not_eq_true he
  · intro s req e P hdr t he hen hpn htr hne hPev
    have hcall : callOutcome (some (.success
        ⟨200, hdr, e ++ '\n' :: ("data: ".toList ++ P ++ ['\n', '\n']), false⟩)) =
        callOutcome (some (.success ⟨200, hdr, P, false⟩)) := by
      show processBody (e ++ '\n' :: ("data: ".toList ++ P ++ ['\n', '\n'])) =
        processBody P
      exact processBody_frame he hen hpn htr hne hPev
    have hsess : sessCapture s.sessionID (some (.success
        ⟨200, hdr, e ++ '\n' :: ("data: ".toList ++ P ++ ['\n', '\n']), false⟩)) =
        sessCapture s.sessionID (some (.success ⟨200, hdr, P, false⟩)) := by
      simp [sessCapture]
    rw [sendRequest_eq, sendRequest_eq]
    simp only [List.head?_cons, List.drop_succ_cons, List.drop_zero]
    rw [hcall, hsess]

theorem C4_witness :
    hasPfx "event:".toList
      "\x7b\"jsonrpc\":\"2.0\",\"id\":1,\"result\":\x7b\x7d\x7d".toList = false ∧
    sendRequest New
      [.success ⟨200, [],
        "event: message".toList ++ '\n' ::
          ("data: ".toList ++
            "\x7b\"jsonrpc\":\"2.0\",\"id\":1,\"result\":\x7b\x7d\x7d".toList ++
            ['\n', '\n']),
        false⟩] ⟨"2.0".toList, some 1, "initialize".toList, none⟩ =
    sendRequest New
      [.success ⟨200, [],
        "\x7b\"jsonrpc\":\"2.0\",\"id\":1,\"result\":\x7b\x7d\x7d".toList, false⟩]
      ⟨"2.0".toList, some 1, "initialize".toList, none⟩ :=
  ⟨C4_sse_bare_equivalence.1
    "\x7b\"jsonrpc\":\"2.0\",\"id\":1,\"result\":\x7b\x7d\x7d".toList rfl,
   C4_sse_bare_equivalence.2 New ⟨"2.0".toList, some 1, "initialize".toList, none⟩
    "event: message".toList
    "\x7b\"jsonrpc\":\"2.0\",\"id\":1,\"result\":\x7b\x7d\x7d".toList [] []
    (by decide) (by decide) (by decide) (by decide) (by decide) (by decide)⟩

/-- C5: a response body that begins with an SSE preamble but has no line
whose trimmed form starts with `data: ` makes the send operation fail
with the SSE framing error; such a body is never treated as valid JSON
and never yields a successfully decoded response, whatever the status
code or body-read outcome. -/
theorem C5_sse_missing_data_fails :
    ∀ (s : Scanner) (req : JSONRPCRequest) (hdr body : Str) (t : World),
      hasPfx "event:".toList body = true →
      (∀ l ∈ splitNL body, hasPfx "data: ".toList (trimSpace l) = false) →
      ((sendRequest s (.success ⟨200, hdr, body, false⟩ :: t) req).1 = .error .sseErr ∧
       ∀ (code : Nat) (berr : Bool) (r : JSONRPCResponse),
         (sendRequest s (.success ⟨code, hdr, body, berr⟩ :: t) req).1 ≠ .ok r) := by
  intro s req hdr body t hev hnd
  have hsse : parseSSEResponse body = none := findDataLine_none hnd
  constructor
  · rw [sendRequest_eq]
    show processBody body = .error .sseErr
    simp only [processBody, hsse]
    rw [if_pos hev]
  · intro code berr r
    rw [sendRequest_eq]
    show callOutcome (some (.success ⟨code, hdr, body, berr⟩)) ≠ .ok r
    by_cases hc : code = 200
    · subst hc
      cases berr with
      | true => simp [callOutcome]
      | false =>
        show processBody body ≠ .ok r
        simp only [processBody, hsse]
        rw [if_pos hev]
        simp
    · simp [callOutcome, hc]

theorem C5_witness :
    (sendRequest New [.success ⟨200, [], "event: message\n\n".toList, false⟩]
      ⟨"2.0".toList, some 1, "tools/list".toList, none⟩).1 = .error .sseErr ∧
    (sendRequest New [.success ⟨500, [], "event: message\n\n".toList, true⟩]
      ⟨"2.0".toList, some 1, "tools/list".toList, none⟩).1 ≠
      .ok ⟨"2.0".toList, .null, .null, none⟩ :=
  ⟨(C5_sse_missing_data_fails New ⟨"2.0".toList, some 1, "tools/list".toList, none⟩
      [] "event: message\n\n".toList [] (by decide) (by decide)).1,
   (C5_sse_missing_data_fails New ⟨"2.0".toList, some 1, "tools/list".toList, none⟩
      [] "event: message\n\n".toList [] (by decide) (by decide)).2 500 true
      ⟨"2.0".toList, .null, .null, none⟩⟩

/-- C8 counterexample: the claim says a response envelope with neither
`result` nor `error` populated is treated as a malformed reply and
passes at no call site; but the body carrying exactly such an envelope
is decoded without error and the handshake accepts it as a success —
`initialize` inspects only the `error` field. -/
theorem C8_counterexample :
    jsonParse "\x7b\"jsonrpc\":\"2.0\",\"id\":1\x7d".toList =
      some (.obj [("jsonrpc".toList, .str "2.0".toList), ("id".toList, .num 1)]) ∧
    decodeResponse (.obj [("jsonrpc".toList, .str "2.0".toList), ("id".toList, .num 1)]) =
      some ⟨"2.0".toList, .num 1, .null, none⟩ ∧
    (initializeMCP New
      [.success ⟨200, [], "\x7b\"jsonrpc\":\"2.0\",\"id\":1\x7d".toList, false⟩]).1 =
      .ok () :=
  ⟨rfl, rfl, rfl⟩

/-- C8 (amended): a response envelope in which neither `result` nor
`error` is populated is not rejected as malformed: the handshake, which
inspects only the `error` field, accepts it as a success, and each
listing call maps it to the empty list (a `null` result decodes to the
zero-valued list result). -/
theorem C8_amended_lenient_envelope :
    ∀ (s : Scanner) (w : World) (r : JSONRPCResponse),
      callOutcome w.head? = .ok r → r.error = none → r.result = .null →
      ((initializeMCP s w).1 = .ok () ∧
       (listTools s w).1 = [] ∧ (listPrompts s w).1 = [] ∧ (listResources s w).1 = []) := by
  intro s w r hc he hres
  refine ⟨?_, ?_, ?_, ?_⟩
  · rw [initializeMCP_result, hc]
    simp [initFrom, he]
  · rw [listTools_eq]
    show toolsFrom (callOutcome w.head?) = []
    rw [hc]
    simp [toolsFrom, he, hres, decodeListToolsResult]
  · rw [listPrompts_eq]
    show promptsFrom (callOutcome w.head?) = []
    rw [hc]
    simp [promptsFrom, he, hres, decodeListPromptsResult]
  · rw [listResources_eq]
    show resourcesFrom (callOutcome w.head?) = []
    rw [hc]
    simp [resourcesFrom, he, hres, decodeListResourcesResult]

theorem C8_amended_witness :
    (initializeMCP New
      [.success ⟨200, [], "\x7b\"jsonrpc\":\"2.0\",\"id\":1\x7d".toList, false⟩]).1 =
      .ok () ∧
    (listTools New
      [.success ⟨200, [], "\x7b\"jsonrpc\":\"2.0\",\"id\":1\x7d".toList, false⟩]).1 = [] ∧
    (listPrompts New
      [.success ⟨200, [], "\x7b\"jsonrpc\":\"2.0\",\"id\":1\x7d".toList, false⟩]).1 = [] ∧
    (listResources New
      [.success ⟨200, [], "\x7b\"jsonrpc\":\"2.0\",\"id\":1\x7d".toList, false⟩]).1 = [] :=
  C8_amended_lenient_envelope New
    [.success ⟨200, [], "\x7b\"jsonrpc\":\"2.0\",\"id\":1\x7d".toList, false⟩]
    ⟨"2.0".toList, .num 1, .null, none⟩ rfl rfl rfl

end MCP
